import Mathlib

/-!
Shallow embedding of `src/openwpm/utilities/platform_utils.py` (OpenWPM fork).

Python strings are modelled as `List Char`; Python dicts (which preserve
insertion order) as association lists; fallible code returns `Except PyErr`.
Machine-level details that the module never relies on (bytes vs str, hashing)
are not modelled.  External collaborators (`json.dumps` for the manager block,
`tabulate`, the filesystem, subprocesses, `os.environ`) enter as explicit
function parameters or as small faithful models where their exact output
matters to a claim.
-/

namespace PlatformUtils

/-- Python strings are modelled as lists of characters. -/
abbrev Str := List Char

/-- Python exceptions that the modelled code can raise to its caller. -/
inductive PyErr where
  /-- `IndexError: list index out of range` -/
  | indexError
  /-- `TypeError` raised by `%`-formatting with a mismatched tuple arity -/
  | typeError
  /-- `NameError`: the given name was referenced before assignment -/
  | nameError (n : Str)
  /-- `RuntimeError(msg)` -/
  | runtimeError (msg : Str)
  /-- `KeyError(key)` from a dict lookup / pop of a missing key -/
  | keyError (k : Str)
deriving DecidableEq

/-- Split a string at the first occurrence of `c` (Python `s.split(c, 1)`
when it yields two parts); `none` when `c` does not occur (in which case the
Python 2-element tuple unpacking raises `ValueError`). -/
def splitOnFirst (c : Char) : Str → Option (Str × Str)
  | [] => none
  | x :: xs =>
    if x = c then some ([], xs)
    else (splitOnFirst c xs).map (fun p => (x :: p.1, p.2))

/-- Split a string at the last occurrence of `c` (Python `s.rsplit(c, 1)`
when it yields two parts); `none` when `c` does not occur. -/
def rsplitOnLast (c : Char) (s : Str) : Option (Str × Str) :=
  match splitOnFirst c s.reverse with
  | none => none
  | some p => some (p.2.reverse, p.1.reverse)

/-- Python `s.split(c)` (no maxsplit): split at every occurrence of `c`;
the empty string yields `[""]`, matching Python. -/
def pySplit (c : Char) : Str → List Str
  | [] => [[]]
  | x :: xs =>
    let r := pySplit c xs
    if x = c then [] :: r
    else
      match r with
      | [] => [[x]]
      | h :: t => (x :: h) :: t

/-- A parsed stack frame: the dict built at lines 22-30 of
`platform_utils.py`, with its string keys in insertion order. -/
abbrev Frame := List (Str × Str)

/-- One iteration of the loop body of `parse_http_stack_trace_str`
(lines 18-30): the `try` block.  Returns `none` exactly when one of the
tuple unpackings would raise (too few parts), i.e. when the line lacks an
`@`, lacks a `;`, or has fewer than two `:` before the last `;`. -/
def parseLine (frame : Str) : Option Frame :=
  match splitOnFirst '@' frame with
  | none => none
  | some (func_name, rest) =>
    match rsplitOnLast ';' rest with
    | none => none
    | some (rest2, async_cause) =>
      match rsplitOnLast ':' rest2 with
      | none => none
      | some (rest3, col_no) =>
        match rsplitOnLast ':' rest3 with
        | none => none
        | some (filename, line_no) =>
          some [("func_name".data, func_name),
                ("filename".data, filename),
                ("line_no".data, line_no),
                ("col_no".data, col_no),
                ("async_cause".data, async_cause)]

/-- The loop of `parse_http_stack_trace_str` over the split lines: first
component is the accumulated `stack_trace`, second component is the
diagnostic side channel (one `print` per frame whose parse failed; the
exception text appended by the Python `print` is elided). -/
def parseFrames : List Str → List Frame × List Str
  | [] => ([], [])
  | f :: fs =>
    let r := parseFrames fs
    match parseLine f with
    | some d => (d :: r.1, r.2)
    | none => (r.1, ("Exception parsing the stack frame ".data ++ f) :: r.2)

/-- `parse_http_stack_trace_str` (lines 13-33).  Total: the `except` at
line 31 catches every per-frame failure, so no exception reaches the
caller. -/
def parse_http_stack_trace_str (trace_str : Str) : List Frame :=
  (parseFrames (pySplit '\n' trace_str)).1

/-- The messages printed at line 32 while parsing, in frame order. -/
def parseDiagnostics (trace_str : Str) : List Str :=
  (parseFrames (pySplit '\n' trace_str)).2

theorem pySplit_eq_single {c : Char} {s : Str} (h : c ∉ s) :
    pySplit c s = [s] := by
  induction s with
  | nil => rfl
  | cons x xs ih =>
    have hx : x ≠ c := fun hxc => h (hxc ▸ List.mem_cons_self x xs)
    have hxs : c ∉ xs := fun hm => h (List.mem_cons_of_mem x hm)
    simp [pySplit, hx, ih hxs]

theorem splitOnFirst_append {c : Char} {a : Str} (b : Str) (h : c ∉ a) :
    splitOnFirst c (a ++ c :: b) = some (a, b) := by
  induction a with
  | nil => simp [splitOnFirst]
  | cons x xs ih =>
    have hx : x ≠ c := fun hxc => h (hxc ▸ List.mem_cons_self x xs)
    have hxs : c ∉ xs := fun hm => h (List.mem_cons_of_mem x hm)
    simp [splitOnFirst, hx, ih hxs]

theorem rsplitOnLast_append {c : Char} (a : Str) {b : Str} (h : c ∉ b) :
    rsplitOnLast c (a ++ c :: b) = some (a, b) := by
  have hrev : (a ++ c :: b).reverse = b.reverse ++ c :: a.reverse := by
    simp [List.reverse_append]
  have hb : c ∉ b.reverse := by simpa using h
  simp [rsplitOnLast, hrev, splitOnFirst_append a.reverse hb]

theorem parseFrames_fst (ls : List Str) :
    (parseFrames ls).1 = ls.filterMap parseLine := by
  induction ls with
  | nil => rfl
  | cons f fs ih => cases h : parseLine f <;> simp [parseFrames, h, ih]

theorem parseFrames_snd (ls : List Str) :
    (parseFrames ls).2 = (ls.filter (fun l => (parseLine l).isNone)).map
      (fun l => "Exception parsing the stack frame ".data ++ l) := by
  induction ls with
  | nil => rfl
  | cons f fs ih => cases h : parseLine f <;> simp [parseFrames, h, ih]

theorem filterMap_eq_filterMap_of_filter {α β : Type} (g : α → Option β)
    (ls : List α) :
    ls.filterMap g = (ls.filter (fun l => (g l).isSome)).filterMap g := by
  induction ls with
  | nil => rfl
  | cons x xs ih => cases h : g x <;> simp [h, ih]

theorem length_filterMap_eq_countP {α β : Type} (g : α → Option β)
    (ls : List α) :
    (ls.filterMap g).length = ls.countP (fun l => (g l).isSome) := by
  induction ls with
  | nil => rfl
  | cons x xs ih => cases h : g x <;> simp [h, ih, List.countP_cons]

/-- C2: for any input string, the parser returns exactly the per-line parses
of the well-formed lines, in their original relative order (first conjunct);
the number of frames equals the number of well-formed lines (second); the
output never exceeds the input line count (third); and every malformed line
produces exactly one diagnostic message on the print side channel, in order
(fourth).  The function is total (`List Frame`, not `Except`), which models
that the `except` clause at line 31 keeps any per-frame failure from
reaching the caller. -/
theorem c2_mixed_lines_filtered_in_order (s : Str) :
    parse_http_stack_trace_str s
        = ((pySplit '\n' s).filter
            (fun l => (parseLine l).isSome)).filterMap parseLine
    ∧ (parse_http_stack_trace_str s).length
        = (pySplit '\n' s).countP (fun l => (parseLine l).isSome)
    ∧ (parse_http_stack_trace_str s).length ≤ (pySplit '\n' s).length
    ∧ parseDiagnostics s
        = ((pySplit '\n' s).filter (fun l => (parseLine l).isNone)).map
            (fun l => "Exception parsing the stack frame ".data ++ l) := by
  refine ⟨?_, ?_, ?_, ?_⟩
  · rw [parse_http_stack_trace_str, parseFrames_fst,
      filterMap_eq_filterMap_of_filter]
  · rw [parse_http_stack_trace_str, parseFrames_fst,
      length_filterMap_eq_countP]
  · rw [parse_http_stack_trace_str, parseFrames_fst,
      length_filterMap_eq_countP]
    exact List.countP_le_length _
  · rw [parseDiagnostics, parseFrames_snd]

/-- C1 (amended): a well-formed trace line `f@p:l:c;a` — no `@` in `f`, no
`:` in `l` or `c`, no `;` in `a`, no newline anywhere — parses to exactly
one frame dict whose keys are, as in the source, `func_name`, `filename`,
`line_no`, `col_no`, `async_cause` (not the spec's `function_name`,
`line_number`, `column_number`), with the raw substrings as values (no
trimming, no numeric coercion). -/
theorem c1_wellformed_line_fields (f p l c a : Str)
    (hf : '@' ∉ f) (hl : ':' ∉ l) (hc : ':' ∉ c) (ha : ';' ∉ a)
    (hnf : '\n' ∉ f) (hnp : '\n' ∉ p) (hnl : '\n' ∉ l) (hnc : '\n' ∉ c)
    (hna : '\n' ∉ a) :
    parse_http_stack_trace_str
        (f ++ '@' :: (p ++ ':' :: (l ++ ':' :: (c ++ ';' :: a))))
      = [[("func_name".data, f), ("filename".data, p), ("line_no".data, l),
          ("col_no".data, c), ("async_cause".data, a)]] := by
  have hn : '\n' ∉ f ++ '@' :: (p ++ ':' :: (l ++ ':' :: (c ++ ';' :: a))) := by
    simp only [List.mem_append, List.mem_cons]
    rintro (h | h | h | h | h | h | h | h) <;>
      first
        | exact hnf h | exact hnp h | exact hnl h | exact hnc h | exact hna h
        | simp_all
  have h1 : splitOnFirst '@'
      (f ++ '@' :: (p ++ ':' :: (l ++ ':' :: (c ++ ';' :: a))))
      = some (f, p ++ ':' :: (l ++ ':' :: (c ++ ';' :: a))) :=
    splitOnFirst_append _ hf
  have h2 : rsplitOnLast ';' (p ++ ':' :: (l ++ ':' :: (c ++ ';' :: a)))
      = some (p ++ ':' :: (l ++ ':' :: c), a) := by
    have h := rsplitOnLast_append (p ++ ':' :: (l ++ ':' :: c)) ha
    simpa [List.append_assoc] using h
  have h3 : rsplitOnLast ':' (p ++ ':' :: (l ++ ':' :: c))
      = some (p ++ ':' :: l, c) := by
    have h := rsplitOnLast_append (p ++ ':' :: l) hc
    simpa [List.append_assoc] using h
  have h4 : rsplitOnLast ':' (p ++ ':' :: l) = some (p, l) :=
    rsplitOnLast_append p hl
  rw [parse_http_stack_trace_str, pySplit_eq_single hn]
  simp [parseFrames, parseLine, h1, h2, h3, h4]

/-- C1 witness: the theorem applied to the concrete line `fn@path:10:22;evt`. -/
theorem c1_witness :
    parse_http_stack_trace_str ("fn@path:10:22;evt".data)
      = [[("func_name".data, "fn".data), ("filename".data, "path".data),
          ("line_no".data, "10".data), ("col_no".data, "22".data),
          ("async_cause".data, "evt".data)]] := by
  have h := c1_wellformed_line_fields ("fn".data) ("path".data) ("10".data)
    ("22".data) ("evt".data) (by decide) (by decide) (by decide) (by decide)
    (by decide) (by decide) (by decide) (by decide) (by decide)
  exact h

/-- C1 counterexample: on a well-formed line the produced frame dict has no
field named `function_name` (the claim says the frame's `function_name`
field equals the function name; the code names the field `func_name`). -/
theorem c1_counterexample :
    parse_http_stack_trace_str ("f@p:1:2;a".data)
      = [[("func_name".data, "f".data), ("filename".data, "p".data),
          ("line_no".data, "1".data), ("col_no".data, "2".data),
          ("async_cause".data, "a".data)]]
    ∧ (parse_http_stack_trace_str ("f@p:1:2;a".data)).map
        (List.lookup ("function_name".data)) = [none] := by
  exact ⟨rfl, rfl⟩

/-- C7 (amended): the line `f@http://x:1:2:3:4;click` is split at the last
two colons of the substring before the last `;` (Python
`rsplit(":", maxsplit=2)`), giving `filename="http://x:1:2"`,
`line_no="3"`, `col_no="4"` — not the spec's `filename="http://x:1"`,
`line_number="2"`. -/
theorem c7_last_two_colons :
    parse_http_stack_trace_str ("f@http://x:1:2:3:4;click".data)
      = [[("func_name".data, "f".data),
          ("filename".data, "http://x:1:2".data),
          ("line_no".data, "3".data), ("col_no".data, "4".data),
          ("async_cause".data, "click".data)]] := by
  rfl

/-- C7 counterexample: the parsed filename is `http://x:1:2`, which differs
from the `http://x:1` stated by the claim (and the line number is `3`, not
`2`). -/
theorem c7_counterexample :
    (parse_http_stack_trace_str ("f@http://x:1:2:3:4;click".data)).map
        (List.lookup ("filename".data)) = [some ("http://x:1:2".data)]
    ∧ [some ("http://x:1:2".data)] ≠ [some ("http://x:1".data)] := by
  exact ⟨rfl, by decide⟩

/-- Python values appearing in configuration dicts (paths, ids, flags,
nested settings).  Dict insertion order is preserved, as in Python. -/
inductive PyVal where
  | pynone
  | pybool (b : Bool)
  | pyint (n : Int)
  | pystr (s : Str)
  | pylist (xs : List PyVal)
  | pydict (d : List (Str × PyVal))

/-- A Python dict with string keys, in insertion order. -/
abbrev Obj := List (Str × PyVal)

mutual

/-- Python `==` on values (used for dict-key comparison). -/
def pyValBeq : PyVal → PyVal → Bool
  | .pynone, .pynone => true
  | .pybool a, .pybool b => a == b
  | .pyint a, .pyint b => a == b
  | .pystr a, .pystr b => a == b
  | .pylist a, .pylist b => pyListBeq a b
  | .pydict a, .pydict b => pyDictBeq a b
  | _, _ => false

def pyListBeq : List PyVal → List PyVal → Bool
  | [], [] => true
  | a :: as, b :: bs => pyValBeq a b && pyListBeq as bs
  | _, _ => false

def pyDictBeq : List (Str × PyVal) → List (Str × PyVal) → Bool
  | [], [] => true
  | (k1, v1) :: as, (k2, v2) :: bs =>
      k1 == k2 && pyValBeq v1 v2 && pyDictBeq as bs
  | _, _ => false

end

/-- `is None` / `is not None` identity test against the `None` singleton. -/
def pyIsNone : PyVal → Bool
  | .pynone => true
  | _ => false

def lbrace : Char := Char.ofNat 123

def rbrace : Char := Char.ofNat 125

def squote : Char := Char.ofNat 39

def natToStr (n : Nat) : Str := Nat.toDigits 10 n

def intToStr (n : Int) : Str :=
  if n < 0 then '-' :: Nat.toDigits 10 n.natAbs else Nat.toDigits 10 n.natAbs

def hexDigit (n : Nat) : Char :=
  if n < 10 then Char.ofNat (48 + n) else Char.ofNat (87 + n)

/-- A 4-digit `\uXXXX` escape as produced by `json.dumps` with
`ensure_ascii=True` (characters beyond the BMP, which Python encodes as a
surrogate pair, are not modelled). -/
def uEscape (n : Nat) : Str :=
  '\\' :: 'u' :: [hexDigit (n / 4096 % 16), hexDigit (n / 256 % 16),
    hexDigit (n / 16 % 16), hexDigit (n % 16)]

/-- Escaping of one character inside a JSON string literal, following
`json.dumps` defaults. -/
def escChar (c : Char) : Str :=
  if c = '"' then ['\\', '"']
  else if c = '\\' then ['\\', '\\']
  else if c = '\n' then ['\\', 'n']
  else if c = '\t' then ['\\', 't']
  else if c = '\r' then ['\\', 'r']
  else if c.toNat = 8 then ['\\', 'b']
  else if c.toNat = 12 then ['\\', 'f']
  else if c.toNat < 32 ∨ c.toNat > 126 then uEscape c.toNat
  else [c]

/-- A JSON string literal for `s`. -/
def jsonQuote (s : Str) : Str :=
  '"' :: (s.foldr (fun c acc => escChar c ++ acc) []) ++ ['"']

mutual

/-- Python `repr` (only to the extent the module exercises it: scalar
values; `repr`-escaping inside quoted strings is not modelled since the
report-relevant values are plain paths). -/
def pyRepr : PyVal → Str
  | .pynone => "None".data
  | .pybool true => "True".data
  | .pybool false => "False".data
  | .pyint n => intToStr n
  | .pystr s => squote :: s ++ [squote]
  | .pylist xs => '[' :: pyReprList xs ++ [']']
  | .pydict d => lbrace :: pyReprDict d ++ [rbrace]

def pyReprList : List PyVal → Str
  | [] => []
  | [x] => pyRepr x
  | x :: xs => pyRepr x ++ ", ".data ++ pyReprList xs

def pyReprDict : List (Str × PyVal) → Str
  | [] => []
  | [(k, v)] => squote :: k ++ squote :: ": ".data ++ pyRepr v
  | (k, v) :: kvs =>
      squote :: k ++ squote :: ": ".data ++ pyRepr v ++ ", ".data
        ++ pyReprDict kvs

end

/-- Python `str()`: identical to `repr` except on strings. -/
def pyStrFn : PyVal → Str
  | .pystr s => s
  | v => pyRepr v

/-- How `json.dumps` renders a non-string dict key (`str`, `int`, `bool`,
`None` are coerced; unhashable container keys, which Python rejects before
serialization, fall back to their repr and are never exercised here). -/
def jsonKeyStr : PyVal → Str
  | .pystr s => jsonQuote s
  | .pyint n => '"' :: intToStr n ++ ['"']
  | .pybool true => "\"true\"".data
  | .pybool false => "\"false\"".data
  | .pynone => "\"null\"".data
  | v => jsonQuote (pyRepr v)

mutual

/-- `json.dumps(v, indent=None, separators=(",", ":"))`. -/
def jsonValC : PyVal → Str
  | .pynone => "null".data
  | .pybool true => "true".data
  | .pybool false => "false".data
  | .pyint n => intToStr n
  | .pystr s => jsonQuote s
  | .pylist xs => '[' :: jsonListC xs ++ [']']
  | .pydict d => lbrace :: jsonDictEntriesC d ++ [rbrace]

def jsonListC : List PyVal → Str
  | [] => []
  | [x] => jsonValC x
  | x :: xs => jsonValC x ++ ',' :: jsonListC xs

def jsonDictEntriesC : List (Str × PyVal) → Str
  | [] => []
  | [(k, v)] => jsonQuote k ++ ':' :: jsonValC v
  | (k, v) :: kvs => jsonQuote k ++ ':' :: jsonValC v ++ ',' :: jsonDictEntriesC kvs

end

/-- Join a list of strings with a separator (Python `sep.join`). -/
def joinSep (sep : Str) : List Str → Str
  | [] => []
  | [x] => x
  | x :: xs => x ++ sep ++ joinSep sep xs

/-- `json.dumps(d, indent=2, separators=(",", ": "))` for a flat dict,
given renderers for keys and values. -/
def jsonFlatDictIndent2 {κ ν : Type} (kf : κ → Str) (vf : ν → Str)
    (d : List (κ × ν)) : Str :=
  match d with
  | [] => [lbrace, rbrace]
  | _ =>
    lbrace :: "\n  ".data
      ++ joinSep (",\n  ".data) (d.map (fun kv => kf kv.1 ++ ": ".data ++ vf kv.2))
      ++ '\n' :: [rbrace]

/-- `json.dumps(d, indent=None, separators=(",", ":"))` for a dict whose
keys are arbitrary Python values (the per-browser-id maps). -/
def jsonDictCompact (d : List (PyVal × PyVal)) : Str :=
  lbrace :: joinSep (",".data)
      (d.map (fun kv => jsonKeyStr kv.1 ++ ":".data ++ jsonValC kv.2))
    ++ [rbrace]

/-- Dict read `o[k]` (first — i.e. unique — matching key). -/
def dictGet (o : Obj) (k : Str) : Option PyVal := List.lookup k o

/-- Keys of a dict, in insertion order. -/
def dictKeys (o : Obj) : List Str := o.map Prod.fst

/-- Remove the entry with key `k` (the state change of `o.pop(k)`). -/
def dictRemove : Obj → Str → Obj
  | [], _ => []
  | (k1, v) :: t, k => if k1 = k then t else (k1, v) :: dictRemove t k

/-- Assignment `d[k] = v` on an (ordered) dict with a custom key equality:
replace in place when the key is present, append otherwise. -/
def dictSetBy {κ ν : Type} (beq : κ → κ → Bool) :
    List (κ × ν) → κ → ν → List (κ × ν)
  | [], k, v => [(k, v)]
  | (k1, v1) :: t, k, v =>
    if beq k1 k then (k, v) :: t else (k1, v1) :: dictSetBy beq t k v

/-- Assignment on a string-keyed dict. -/
def dictSet (o : Obj) (k : Str) (v : PyVal) : Obj :=
  dictSetBy (fun a b => a == b) o k v

/-- Lexicographic comparison on code points, Python's `<` on strings. -/
def strLt : Str → Str → Bool
  | _, [] => false
  | [], _ :: _ => true
  | a :: as, b :: bs => if a < b then true else if a = b then strLt as bs else false

def insertSorted (k : Str) : List Str → List Str
  | [] => [k]
  | x :: xs => if strLt k x then k :: x :: xs else x :: insertSorted k xs

/-- Python `sorted` on a list of (distinct) keys. -/
def sortKeys (ks : List Str) : List Str := ks.foldr insertSorted []

/-- The values the loop body (lines 201-220) extracts from one deep-copied
browser dict: the `browser_id`, the three popped fields, and the
remaining-fields record `dct`. -/
structure ItemResult where
  browser_id : PyVal
  seedV : PyVal
  archV : PyVal
  jsV : PyVal
  dct : Obj

/-- One iteration of the loop at lines 201-220 of `get_configuration_string`
over a (deep-copied) browser dict `item`: reads `item["browser_id"]` and
the two print-flag fields, pops `seed_tar`, `profile_archive_dir` and
`cleaned_js_instrument_settings`, and builds `dct` with `browser_id` first
followed by the remaining keys in sorted order (re-assigning `browser_id`
in place, as `OrderedDict` does).  A missing key surfaces as the `KeyError`
Python would raise. -/
def processItem (item : Obj) : Except PyErr ItemResult :=
  match dictGet item ("browser_id".data) with
  | none => .error (.keyError ("browser_id".data))
  | some browser_id =>
    match dictGet item ("seed_tar".data) with
    | none => .error (.keyError ("seed_tar".data))
    | some seedV =>
      match dictGet item ("profile_archive_dir".data) with
      | none => .error (.keyError ("profile_archive_dir".data))
      | some archV =>
        let item1 := dictRemove item ("seed_tar".data)
        let item2 := dictRemove item1 ("profile_archive_dir".data)
        match dictGet item2 ("cleaned_js_instrument_settings".data) with
        | none => .error (.keyError ("cleaned_js_instrument_settings".data))
        | some jsV =>
          let item3 := dictRemove item2 ("cleaned_js_instrument_settings".data)
          let dct := (sortKeys (dictKeys item3)).foldl
            (fun d k => dictSet d k ((dictGet item3 k).getD PyVal.pynone))
            [(("browser_id".data), browser_id)]
          .ok ⟨browser_id, seedV, archV, jsV, dct⟩

/-- The loop over all deep-copied browser dicts, in input order; the first
failing item aborts the call, as in Python. -/
def processItems : List Obj → Except PyErr (List ItemResult)
  | [] => .ok []
  | it :: its =>
    match processItem it with
    | .error e => .error e
    | .ok r =>
      match processItems its with
      | .error e => .error e
      | .ok rs => .ok (r :: rs)

/-- `table_input` accumulated by the loop. -/
def tableInput (rs : List ItemResult) : List Obj := rs.map ItemResult.dct

/-- `profile_dirs`: `browser_id -> str(seed_tar)`, insertion-ordered. -/
def profileDirs (rs : List ItemResult) : List (PyVal × PyVal) :=
  rs.foldl (fun d r => dictSetBy pyValBeq d r.browser_id (.pystr (pyStrFn r.seedV))) []

/-- `archive_dirs`: `browser_id -> str(profile_archive_dir)`. -/
def archiveDirs (rs : List ItemResult) : List (PyVal × PyVal) :=
  rs.foldl (fun d r => dictSetBy pyValBeq d r.browser_id (.pystr (pyStrFn r.archV))) []

/-- `js_config`: `browser_id -> cleaned_js_instrument_settings`. -/
def jsConfig (rs : List ItemResult) : List (PyVal × PyVal) :=
  rs.foldl (fun d r => dictSetBy pyValBeq d r.browser_id r.jsV) []

/-- The `profile_all_none` flag: stays `True` iff no `seed_tar` was
`not None` (lines 200, 205-206). -/
def profileAllNone (rs : List ItemResult) : Bool :=
  rs.all (fun r => pyIsNone r.seedV)

/-- The `archive_all_none` flag (lines 200, 207-208). -/
def archiveAllNone (rs : List ItemResult) : Bool :=
  rs.all (fun r => pyIsNone r.archV)

/-- The key legend `key_dict` built from the first table row (lines
222-226): each key of the first record, mapped to its zero-based index. -/
def mkKeyDict (ks : List Str) : List (Str × Nat) :=
  ks.enum.map (fun p => (p.2, p.1))

/-- Line 183: `"\n\nOpenWPM Version: %s\nFirefox Version: %s\n" % versions`.
The format string holds exactly two `%s` placeholders, so `%` raises
`TypeError` unless the tuple has exactly two elements ("not all arguments
converted" for longer tuples, "not enough arguments" for shorter; both are
`TypeError`). -/
def formatVersions : List Str → Except PyErr Str
  | [a, b] =>
    .ok ("\n\nOpenWPM Version: ".data ++ a ++ "\nFirefox Version: ".data
      ++ b ++ "\n".data)
  | _ => .error .typeError

def mgrDelim : Str := "\n========== Manager Configuration ==========\n".data

def brwDelim : Str := "\n\n========== Browser Configuration ==========\n".data

def jsDelim : Str := "\n\n========== JS Instrument Settings ==========\n".data

def tarDelim : Str := "\n\n========== Input profile tar files ==========\n".data

def arcDelim : Str := "\n\n========== Output (archive) profile dirs ==========\n".data

def noTarMsg : Str := "  No profile tar files specified".data

def noArcMsg : Str := "  No profile archive directories specified".data

/-- The profile-tar section body (lines 236-239). -/
def tarBlock (rs : List ItemResult) : Str :=
  if profileAllNone rs then noTarMsg
  else jsonFlatDictIndent2 jsonKeyStr jsonValC (profileDirs rs)

/-- The archive-dir section body (lines 242-245). -/
def arcBlock (rs : List ItemResult) : Str :=
  if archiveAllNone rs then noArcMsg
  else jsonFlatDictIndent2 jsonKeyStr jsonValC (archiveDirs rs)

/-- `get_configuration_string` (lines 175-248).  `managerJson` stands for
the externally produced `json.dumps(manager_params.to_dict(), ...,
cls=ConfigEncoder)` block (`ConfigEncoder` lives outside this module), and
`tabulateFn` for the external `tabulate` call.  The deep copy at line 195
makes the loop operate on copies; its frame effect on the caller's objects
is modelled separately by `browserReportMutation` below. -/
def get_configuration_string (managerJson : Str) (browser_params : List Obj)
    (versions : List Str) (tabulateFn : List Obj → List (Str × Nat) → Str) :
    Except PyErr Str :=
  match formatVersions versions with
  | .error e => .error e
  | .ok header =>
    match processItems browser_params with
    | .error e => .error e
    | .ok rs =>
      match tableInput rs with
      | [] => .error .indexError
      | first :: _ =>
        let key_dict := mkKeyDict (dictKeys first)
        .ok (header ++ mgrDelim ++ managerJson ++ brwDelim
          ++ "Keys:\n".data
          ++ jsonFlatDictIndent2 jsonQuote natToStr key_dict
          ++ "\n\n".data
          ++ tabulateFn (tableInput rs) key_dict
          ++ jsDelim ++ jsonDictCompact (jsConfig rs)
          ++ tarDelim ++ tarBlock rs
          ++ arcDelim ++ arcBlock rs
          ++ "\n\n".data)

/-- C3: called with an empty browser-config sequence (and a well-typed
2-tuple of versions, so the header formats), the function reaches
`table_input[0].keys()` at line 224 with `table_input == []` and raises a
bare `IndexError` — not the descriptive error the claim asks for. -/
theorem c3_empty_browser_configs_index_error (managerJson v1 v2 : Str)
    (tabulateFn : List Obj → List (Str × Nat) → Str) :
    get_configuration_string managerJson [] [v1, v2] tabulateFn
      = .error PyErr.indexError := rfl

/-- C4: the header format string at line 183 has only two `%s`
placeholders, so for every 3-tuple of version strings the `%` operator
raises `TypeError` and no report is produced — the claim's described
report (header with all three versions, five section delimiters) is never
returned. -/
theorem c4_three_version_tuple_type_error (managerJson : Str)
    (browser_params : List Obj) (v1 v2 v3 : Str)
    (tabulateFn : List Obj → List (Str × Nat) → Str) :
    get_configuration_string managerJson browser_params [v1, v2, v3] tabulateFn
      = .error PyErr.typeError := rfl

/-- `sub` occurs contiguously inside `s`. -/
def containsSub (s sub : Str) : Prop := ∃ a b, s = a ++ sub ++ b

theorem containsSub_self (s : Str) : containsSub s s := ⟨[], [], by simp⟩

theorem containsSub_append_left {s sub : Str} (t : Str)
    (h : containsSub s sub) : containsSub (t ++ s) sub := by
  obtain ⟨a, b, rfl⟩ := h
  exact ⟨t ++ a, b, by simp⟩

theorem containsSub_append_right {s sub : Str} (t : Str)
    (h : containsSub s sub) : containsSub (s ++ t) sub := by
  obtain ⟨a, b, rfl⟩ := h
  exact ⟨a, b ++ t, by simp⟩

theorem containsSub_cons {s sub : Str} (c : Char)
    (h : containsSub s sub) : containsSub (c :: s) sub := by
  simpa using containsSub_append_left [c] h

theorem joinSep_containsSub (sep : Str) {x : Str} :
    ∀ {l : List Str}, x ∈ l → containsSub (joinSep sep l) x := by
  intro l
  induction l with
  | nil => intro h; cases h
  | cons y ys ih =>
    intro hm
    cases ys with
    | nil =>
      have hx : x = y := by simpa using hm
      subst hx
      exact containsSub_self x
    | cons z zs =>
      rcases List.mem_cons.mp hm with h | h
      · subst h
        exact ⟨[], sep ++ joinSep sep (z :: zs), by simp [joinSep]⟩
      · have h2 := ih h
        have h3 := containsSub_append_left (y ++ sep) h2
        simpa [joinSep, List.append_assoc] using h3

theorem jsonFlatDictIndent2_containsSub {κ ν : Type} (kf : κ → Str)
    (vf : ν → Str) {d : List (κ × ν)} {k : κ} {v : ν} (h : (k, v) ∈ d) :
    containsSub (jsonFlatDictIndent2 kf vf d) (kf k ++ ": ".data ++ vf v) := by
  have hmem : kf k ++ ": ".data ++ vf v
      ∈ d.map (fun kv => kf kv.1 ++ ": ".data ++ vf kv.2) :=
    List.mem_map.mpr ⟨(k, v), h, rfl⟩
  have hjoin := joinSep_containsSub (",\n  ".data) hmem
  cases d with
  | nil => cases h
  | cons kv kvs =>
    have h1 := containsSub_append_right ('\n' :: [rbrace]) hjoin
    have h2 := containsSub_append_left ("\n  ".data) h1
    have h3 := containsSub_cons lbrace h2
    simpa [jsonFlatDictIndent2, List.append_assoc] using h3

theorem pyIsNone_iff {v : PyVal} : pyIsNone v = true ↔ v = .pynone := by
  cases v <;> simp [pyIsNone]

theorem processItem_gets {it : Obj} {r : ItemResult}
    (h : processItem it = .ok r) :
    dictGet it ("browser_id".data) = some r.browser_id
    ∧ dictGet it ("seed_tar".data) = some r.seedV
    ∧ dictGet it ("profile_archive_dir".data) = some r.archV := by
  unfold processItem at h
  cases h1 : dictGet it ("browser_id".data) <;> rw [h1] at h
  · cases h
  cases h2 : dictGet it ("seed_tar".data) <;> rw [h2] at h
  · cases h
  cases h3 : dictGet it ("profile_archive_dir".data) <;> rw [h3] at h
  · cases h
  cases h4 : dictGet (dictRemove (dictRemove it ("seed_tar".data))
      ("profile_archive_dir".data)) ("cleaned_js_instrument_settings".data) <;>
    simp only [h4] at h
  · cases h
  · cases h
    simp

theorem processItems_forall₂ :
    ∀ {bp : List Obj} {rs : List ItemResult}, processItems bp = .ok rs →
      List.Forall₂ (fun it r => processItem it = .ok r) bp rs := by
  intro bp
  induction bp with
  | nil => intro rs h; cases h; exact List.Forall₂.nil
  | cons it its ih =>
    intro rs h
    unfold processItems at h
    cases h1 : processItem it <;> rw [h1] at h
    · cases h
    cases h2 : processItems its <;> rw [h2] at h
    · cases h
    cases h
    exact List.Forall₂.cons h1 (ih h2)

theorem forall₂_iff_transfer {α β : Type} {R : α → β → Prop} {P : α → Prop}
    {Q : β → Prop} :
    ∀ {l1 : List α} {l2 : List β}, List.Forall₂ R l1 l2 →
      (∀ a b, R a b → (P a ↔ Q b)) →
      ((∀ a ∈ l1, P a) ↔ (∀ b ∈ l2, Q b)) := by
  intro l1 l2 hf hpt
  induction hf with
  | nil => simp
  | cons hab _ ih => simp [ih, hpt _ _ hab]

theorem forall₂_exists_of_mem {α β : Type} {R : α → β → Prop} {a : α} :
    ∀ {l1 : List α} {l2 : List β}, List.Forall₂ R l1 l2 → a ∈ l1 →
      ∃ b, b ∈ l2 ∧ R a b := by
  intro l1 l2 hf
  induction hf with
  | nil => intro h; cases h
  | cons hab _ ih =>
    intro hm
    rcases List.mem_cons.mp hm with h | h
    · subst h; exact ⟨_, List.mem_cons_self _ _, hab⟩
    · obtain ⟨b, hb, hr⟩ := ih h
      exact ⟨b, List.mem_cons_of_mem _ hb, hr⟩

theorem dictSetBy_fresh {κ ν : Type} {beq : κ → κ → Bool} {k : κ} :
    ∀ {d : List (κ × ν)} (v : ν), (∀ kv ∈ d, beq kv.1 k = false) →
      dictSetBy beq d k v = d ++ [(k, v)] := by
  intro d
  induction d with
  | nil => intro v _; rfl
  | cons kv t ih =>
    intro v hfresh
    have hk : beq kv.1 k = false := hfresh kv (List.mem_cons_self _ _)
    obtain ⟨k1, v1⟩ := kv
    simp only [dictSetBy, hk, Bool.false_eq_true, if_false, List.cons_append,
      List.cons.injEq, true_and]
    exact ih v (fun x hx => hfresh x (List.mem_cons_of_mem _ hx))

theorem foldl_dictSetBy_map {α κ ν : Type} (beq : κ → κ → Bool)
    (key : α → κ) (val : α → ν) :
    ∀ (rs : List α) (acc : List (κ × ν)),
      List.Pairwise (fun r1 r2 => beq (key r1) (key r2) = false) rs →
      (∀ r ∈ rs, ∀ kv ∈ acc, beq kv.1 (key r) = false) →
      rs.foldl (fun d r => dictSetBy beq d (key r) (val r)) acc
        = acc ++ rs.map (fun r => (key r, val r)) := by
  intro rs
  induction rs with
  | nil => intro acc _ _; simp
  | cons r t ih =>
    intro acc hpw hfresh
    have hset : dictSetBy beq acc (key r) (val r) = acc ++ [(key r, val r)] :=
      dictSetBy_fresh (val r) (fun kv hkv => hfresh r (List.mem_cons_self _ _) kv hkv)
    have hpw2 : List.Pairwise (fun r1 r2 => beq (key r1) (key r2) = false) t :=
      (List.pairwise_cons.mp hpw).2
    have hhead : ∀ x ∈ t, beq (key r) (key x) = false :=
      (List.pairwise_cons.mp hpw).1
    have hfresh2 : ∀ x ∈ t, ∀ kv ∈ acc ++ [(key r, val r)],
        beq kv.1 (key x) = false := by
      intro x hx kv hkv
      rcases List.mem_append.mp hkv with h | h
      · exact hfresh x (List.mem_cons_of_mem _ hx) kv h
      · have : kv = (key r, val r) := by simpa using h
        subst this
        exact hhead x hx
    calc (r :: t).foldl (fun d x => dictSetBy beq d (key x) (val x)) acc
        = t.foldl (fun d x => dictSetBy beq d (key x) (val x))
            (acc ++ [(key r, val r)]) := by rw [List.foldl_cons, hset]
      _ = (acc ++ [(key r, val r)]) ++ t.map (fun x => (key x, val x)) :=
            ih _ hpw2 hfresh2
      _ = acc ++ (r :: t).map (fun x => (key x, val x)) := by simp

theorem allNone_flag_iff {bp : List Obj} {rs : List ItemResult}
    (hf : List.Forall₂ (fun it r => processItem it = .ok r) bp rs)
    (fld : ItemResult → PyVal) (keyName : Str)
    (hget : ∀ {it r}, processItem it = .ok r →
      dictGet it keyName = some (fld r)) :
    (rs.all (fun r => pyIsNone (fld r)) = true
      ↔ ∀ it ∈ bp, dictGet it keyName = some PyVal.pynone) := by
  rw [List.all_eq_true]
  exact (forall₂_iff_transfer hf (fun it r hr => by
    rw [hget hr, pyIsNone_iff]
    simp)).symm

theorem dirs_map_and_membership {bp : List Obj} {rs : List ItemResult}
    (hf : List.Forall₂ (fun it r => processItem it = .ok r) bp rs)
    (hids : List.Pairwise
      (fun r1 r2 => pyValBeq r1.browser_id r2.browser_id = false) rs)
    (fld : ItemResult → PyVal) (keyName : Str)
    (hget : ∀ {it r}, processItem it = .ok r →
      dictGet it keyName = some (fld r)) :
    rs.foldl (fun d r =>
        dictSetBy pyValBeq d r.browser_id (.pystr (pyStrFn (fld r)))) []
      = rs.map (fun r => (r.browser_id, PyVal.pystr (pyStrFn (fld r))))
    ∧ ∀ it ∈ bp, ∃ idv fv,
        dictGet it ("browser_id".data) = some idv
        ∧ dictGet it keyName = some fv
        ∧ (idv, PyVal.pystr (pyStrFn fv))
            ∈ rs.map (fun r => (r.browser_id, PyVal.pystr (pyStrFn (fld r)))) := by
  constructor
  · have h := foldl_dictSetBy_map pyValBeq ItemResult.browser_id
      (fun r => PyVal.pystr (pyStrFn (fld r))) rs [] hids
      (fun _ _ kv hkv => absurd hkv (List.not_mem_nil kv))
    simpa using h
  · intro it hit
    obtain ⟨r, hr, hpr⟩ := forall₂_exists_of_mem hf hit
    obtain ⟨hg1, _, _⟩ := processItem_gets hpr
    exact ⟨r.browser_id, fld r, hg1, hget hpr,
      List.mem_map.mpr ⟨r, hr, rfl⟩⟩

/-- C6: whenever the report is produced (hypotheses: the per-browser loop
succeeds with a non-empty result, and the per-browser ids are pairwise
distinct as the data model requires), the report ends with the
profile-tar and archive-dir sections; each section body is the literal
placeholder line (and not a JSON block) exactly when every browser's value
is `None`, and otherwise is the indent-2 JSON dump mapping every
`browser_id` to `str(value)` — so a `None` among non-`None` values is
rendered as the JSON string `"None"`. -/
theorem c6_profile_archive_sections (managerJson : Str) (bp : List Obj)
    (v1 v2 : Str) (tabulateFn : List Obj → List (Str × Nat) → Str)
    (q : ItemResult) (qs : List ItemResult)
    (hrs : processItems bp = .ok (q :: qs))
    (hids : List.Pairwise
      (fun r1 r2 => pyValBeq r1.browser_id r2.browser_id = false) (q :: qs)) :
    (∃ pre : Str,
      get_configuration_string managerJson bp [v1, v2] tabulateFn
        = .ok (pre ++ tarDelim ++ tarBlock (q :: qs) ++ arcDelim
            ++ arcBlock (q :: qs) ++ "\n\n".data))
    ∧ (profileAllNone (q :: qs) = true
        ↔ ∀ it ∈ bp, dictGet it ("seed_tar".data) = some PyVal.pynone)
    ∧ (archiveAllNone (q :: qs) = true
        ↔ ∀ it ∈ bp, dictGet it ("profile_archive_dir".data) = some PyVal.pynone)
    ∧ (profileAllNone (q :: qs) = true → tarBlock (q :: qs) = noTarMsg)
    ∧ (archiveAllNone (q :: qs) = true → arcBlock (q :: qs) = noArcMsg)
    ∧ (profileAllNone (q :: qs) = false →
        tarBlock (q :: qs)
            = jsonFlatDictIndent2 jsonKeyStr jsonValC (profileDirs (q :: qs))
        ∧ profileDirs (q :: qs)
            = (q :: qs).map (fun r => (r.browser_id, PyVal.pystr (pyStrFn r.seedV)))
        ∧ ∀ it ∈ bp, ∃ idv seedv,
            dictGet it ("browser_id".data) = some idv
            ∧ dictGet it ("seed_tar".data) = some seedv
            ∧ containsSub (tarBlock (q :: qs))
                (jsonKeyStr idv ++ ": ".data
                  ++ jsonValC (PyVal.pystr (pyStrFn seedv))))
    ∧ (archiveAllNone (q :: qs) = false →
        arcBlock (q :: qs)
            = jsonFlatDictIndent2 jsonKeyStr jsonValC (archiveDirs (q :: qs))
        ∧ archiveDirs (q :: qs)
            = (q :: qs).map (fun r => (r.browser_id, PyVal.pystr (pyStrFn r.archV)))
        ∧ ∀ it ∈ bp, ∃ idv archv,
            dictGet it ("browser_id".data) = some idv
            ∧ dictGet it ("profile_archive_dir".data) = some archv
            ∧ containsSub (arcBlock (q :: qs))
                (jsonKeyStr idv ++ ": ".data
                  ++ jsonValC (PyVal.pystr (pyStrFn archv)))) := by
  have hf := processItems_forall₂ hrs
  have hseed : ∀ {it r}, processItem it = .ok r →
      dictGet it ("seed_tar".data) = some r.seedV :=
    fun h => (processItem_gets h).2.1
  have harch : ∀ {it r}, processItem it = .ok r →
      dictGet it ("profile_archive_dir".data) = some r.archV :=
    fun h => (processItem_gets h).2.2
  obtain ⟨hpmap, hpmem⟩ :=
    dirs_map_and_membership hf hids ItemResult.seedV ("seed_tar".data) hseed
  obtain ⟨hamap, hamem⟩ :=
    dirs_map_and_membership hf hids ItemResult.archV
      ("profile_archive_dir".data) harch
  refine ⟨?_, ?_, ?_, ?_, ?_, ?_, ?_⟩
  · refine ⟨("\n\nOpenWPM Version: ".data ++ v1 ++ "\nFirefox Version: ".data
        ++ v2 ++ "\n".data) ++ mgrDelim ++ managerJson ++ brwDelim
        ++ "Keys:\n".data
        ++ jsonFlatDictIndent2 jsonQuote natToStr (mkKeyDict (dictKeys q.dct))
        ++ "\n\n".data
        ++ tabulateFn (tableInput (q :: qs)) (mkKeyDict (dictKeys q.dct))
        ++ jsDelim ++ jsonDictCompact (jsConfig (q :: qs)), ?_⟩
    simp [get_configuration_string, formatVersions, hrs, tableInput,
      List.append_assoc]
  · exact allNone_flag_iff hf ItemResult.seedV ("seed_tar".data) hseed
  · exact allNone_flag_iff hf ItemResult.archV
      ("profile_archive_dir".data) harch
  · intro h; simp [tarBlock, h]
  · intro h; simp [arcBlock, h]
  · intro h
    have hblk : tarBlock (q :: qs)
        = jsonFlatDictIndent2 jsonKeyStr jsonValC (profileDirs (q :: qs)) := by
      simp [tarBlock, h]
    refine ⟨hblk, by simpa [profileDirs] using hpmap, ?_⟩
    intro it hit
    obtain ⟨idv, seedv, h1, h2, hmem⟩ := hpmem it hit
    refine ⟨idv, seedv, h1, h2, ?_⟩
    rw [hblk]
    have hmem2 : (idv, PyVal.pystr (pyStrFn seedv)) ∈ profileDirs (q :: qs) := by
      rw [show profileDirs (q :: qs)
          = (q :: qs).map (fun r => (r.browser_id, PyVal.pystr (pyStrFn r.seedV)))
        from by simpa [profileDirs] using hpmap]
      exact hmem
    exact jsonFlatDictIndent2_containsSub jsonKeyStr jsonValC hmem2
  · intro h
    have hblk : arcBlock (q :: qs)
        = jsonFlatDictIndent2 jsonKeyStr jsonValC (archiveDirs (q :: qs)) := by
      simp [arcBlock, h]
    refine ⟨hblk, by simpa [archiveDirs] using hamap, ?_⟩
    intro it hit
    obtain ⟨idv, archv, h1, h2, hmem⟩ := hamem it hit
    refine ⟨idv, archv, h1, h2, ?_⟩
    rw [hblk]
    have hmem2 : (idv, PyVal.pystr (pyStrFn archv)) ∈ archiveDirs (q :: qs) := by
      rw [show archiveDirs (q :: qs)
          = (q :: qs).map (fun r => (r.browser_id, PyVal.pystr (pyStrFn r.archV)))
        from by simpa [archiveDirs] using hamap]
      exact hmem
    exact jsonFlatDictIndent2_containsSub jsonKeyStr jsonValC hmem2

/-- A concrete browser-config dict: `browser_id=1`, `seed_tar="/a.tar"`,
`profile_archive_dir=None`, empty JS-instrument settings. -/
def c6bp : Obj :=
  [("browser_id".data, .pyint 1), ("seed_tar".data, .pystr ("/a.tar".data)),
   ("profile_archive_dir".data, .pynone),
   ("cleaned_js_instrument_settings".data, .pydict [])]

/-- The loop result for `c6bp`. -/
def c6res : ItemResult :=
  ⟨.pyint 1, .pystr ("/a.tar".data), .pynone, .pydict [],
    [("browser_id".data, .pyint 1)]⟩

/-- C6 witness: for the single browser config `c6bp` (non-`None` seed tar,
`None` archive dir) the tar section is the JSON dump containing
`"1": "/a.tar"`, while the archive section is the placeholder line. -/
theorem c6_witness :
    processItems [c6bp] = .ok [c6res]
    ∧ profileAllNone [c6res] = false
    ∧ archiveAllNone [c6res] = true
    ∧ tarBlock [c6res]
        = jsonFlatDictIndent2 jsonKeyStr jsonValC (profileDirs [c6res])
    ∧ arcBlock [c6res] = noArcMsg
    ∧ containsSub (tarBlock [c6res])
        (jsonKeyStr (PyVal.pyint 1) ++ ": ".data
          ++ jsonValC (PyVal.pystr ("/a.tar".data))) := by
  obtain ⟨h1, h2, h3, h4, h5, h6, h7⟩ :=
    c6_profile_archive_sections [] [c6bp] ("a".data) ("b".data)
      (fun _ _ => []) c6res [] rfl (by simp)
  have hp : profileAllNone [c6res] = false := rfl
  obtain ⟨hblk, hmap, hmem⟩ := h6 hp
  obtain ⟨idv, seedv, hg1, hg2, hcs⟩ := hmem c6bp (by simp)
  have hidv : idv = PyVal.pyint 1 := by
    have h : some idv = some (PyVal.pyint 1) := by rw [← hg1]; rfl
    exact Option.some.inj h
  have hseedv : seedv = PyVal.pystr ("/a.tar".data) := by
    have h : some seedv = some (PyVal.pystr ("/a.tar".data)) := by
      rw [← hg2]; rfl
    exact Option.some.inj h
  subst hidv hseedv
  exact ⟨rfl, hp, rfl, hblk, h5 rfl, hcs⟩

/-- Mutable heap for the frame-effect model of lines 195-213: dict objects
addressed by allocation index.  `browser_params` enter as addresses of the
caller-owned dicts. -/
abbrev Store := List Obj

/-- Dereference an address (out-of-range reads never occur in the model). -/
def readObj (s : Store) (a : Nat) : Obj := s.getD a []

/-- Line 195: `print_params = [deepcopy(x.to_dict()) for x in
browser_params]`.  Each deep copy allocates a fresh object (at address
`s.length`) holding the same value; since the loop below mutates only
top-level entries of the copies, dict values can be treated as immutable
data, so a value copy models the deep copy. -/
def deepcopyAll : Store → List Nat → Store × List Nat
  | s, [] => (s, [])
  | s, a :: as =>
    let s1 := s ++ [readObj s a]
    let p := deepcopyAll s1 as
    (p.1, s.length :: p.2)

/-- The store effect of `item.pop(k)`: write back the dict without `k`. -/
def popWrite (s : Store) (a : Nat) (k : Str) : Store :=
  s.set a (dictRemove (readObj s a) k)

/-- The three destructive pops of one loop iteration (lines 211-213). -/
def popAllAt (s : Store) (a : Nat) : Store :=
  popWrite (popWrite (popWrite s a ("seed_tar".data)) a
    ("profile_archive_dir".data)) a ("cleaned_js_instrument_settings".data)

/-- The loop over `print_params`, restricted to its store mutations (the
values it reads and accumulates are computed by `processItems` above). -/
def runPopLoop : Store → List Nat → Store
  | s, [] => s
  | s, a :: as => runPopLoop (popAllAt s a) as

/-- Lines 195-220 as a store transformer: deep-copy every caller dict,
then run the destructive loop over the copies. -/
def browserReportMutation (s : Store) (addrs : List Nat) : Store :=
  runPopLoop (deepcopyAll s addrs).1 (deepcopyAll s addrs).2

theorem deepcopyAll_spec :
    ∀ (addrs : List Nat) (s : Store), ∃ t : Store,
      (deepcopyAll s addrs).1 = s ++ t
      ∧ ∀ n ∈ (deepcopyAll s addrs).2, s.length ≤ n := by
  intro addrs
  induction addrs with
  | nil => intro s; exact ⟨[], by simp [deepcopyAll], by simp [deepcopyAll]⟩
  | cons a as ih =>
    intro s
    obtain ⟨t, h1, h2⟩ := ih (s ++ [readObj s a])
    refine ⟨[readObj s a] ++ t, ?_, ?_⟩
    · simp only [deepcopyAll, h1, List.append_assoc]
    · intro n hn
      simp only [deepcopyAll, List.mem_cons] at hn
      rcases hn with h | h
      · exact h ▸ Nat.le_refl _
      · have := h2 n h
        simp only [List.length_append, List.length_singleton] at this
        exact Nat.le_of_succ_le this

theorem getD_set_ne {α : Type} (x d : α) :
    ∀ (s : List α) (a i : Nat), i ≠ a →
      (s.set a x).getD i d = s.getD i d := by
  intro s
  induction s with
  | nil => intro a i _; rfl
  | cons y ys ih =>
    intro a i hne
    cases a with
    | zero =>
      cases i with
      | zero => exact absurd rfl hne
      | succ j => simp [List.set]
    | succ b =>
      cases i with
      | zero => simp [List.set]
      | succ j =>
        simp only [List.set, List.getD_cons_succ]
        exact ih b j (fun h => hne (by rw [h]))

theorem popAllAt_readObj_ne {s : Store} {a i : Nat} (h : i ≠ a) :
    readObj (popAllAt s a) i = readObj s i := by
  simp only [popAllAt, popWrite, readObj]
  rw [getD_set_ne _ _ _ _ _ h, getD_set_ne _ _ _ _ _ h,
    getD_set_ne _ _ _ _ _ h]

theorem popAllAt_length (s : Store) (a : Nat) :
    (popAllAt s a).length = s.length := by
  simp [popAllAt, popWrite]

theorem runPopLoop_readObj :
    ∀ (addrs : List Nat) (s : Store) (i : Nat), (∀ a ∈ addrs, i ≠ a) →
      readObj (runPopLoop s addrs) i = readObj s i := by
  intro addrs
  induction addrs with
  | nil => intro s i _; rfl
  | cons a as ih =>
    intro s i hne
    rw [runPopLoop, ih _ _ (fun b hb => hne b (List.mem_cons_of_mem _ hb)),
      popAllAt_readObj_ne (hne a (List.mem_cons_self _ _))]

/-- C5: the report loop never mutates a caller-owned browser-config dict.
Every object present in the store before the call — in particular each
dict in `browser_params` — is unchanged afterwards: the deep copy at line
195 confines the destructive `pop`s of lines 211-213 to fresh addresses. -/
theorem c5_caller_configs_unchanged (s : Store) (addrs : List Nat) (i : Nat)
    (hi : i < s.length) :
    readObj (browserReportMutation s addrs) i = readObj s i := by
  obtain ⟨t, h1, h2⟩ := deepcopyAll_spec addrs s
  rw [browserReportMutation, h1,
    runPopLoop_readObj _ _ _ (fun a ha => Nat.ne_of_lt (Nat.lt_of_lt_of_le hi (h2 a ha))),
    readObj, readObj, List.getD_append _ _ _ _ hi]

/-- C5 witness: a one-object store with its dict passed as the only browser
config; after the call the caller's dict still holds its `seed_tar`. -/
theorem c5_witness :
    0 < ([[(("seed_tar".data), PyVal.pystr ("/x".data))]] : Store).length
    ∧ readObj (browserReportMutation
        [[(("seed_tar".data), PyVal.pystr ("/x".data))]] [0]) 0
      = [(("seed_tar".data), PyVal.pystr ("/x".data))] :=
  ⟨by decide,
    by
      rw [c5_caller_configs_unchanged
        [[(("seed_tar".data), PyVal.pystr ("/x".data))]] [0] 0 (by decide)]
      rfl⟩

/-- `get_torbrowser_profile_path` (lines 104-139).  The filesystem and
environment enter as parameters: `envOverride` is
`os.environ.get("TORBROWSER_PROFILE")`, `isdir` is `os.path.isdir`,
`abspath` is `os.path.abspath`, `root_dir` the directory three levels above
the module.  Python's name resolution is embedded per path: a read of a
local name that no executed assignment bound raises `NameError`, which the
comments below record branch by branch. -/
def get_torbrowser_profile_path (envOverride : Option Str)
    (isdir : Str → Bool) (platform : Str) (abspath : Str → Str)
    (root_dir slider_setting : Str) : Except PyErr Str :=
  match envOverride with
  | some torbrowser_binary_path =>
    let total_path := torbrowser_binary_path ++ "/".data ++ slider_setting
    if isdir total_path then
      -- line 120 returns `torbrowser_profile_path + f"/{slider_setting}"`,
      -- but only `torbrowser_binary_path` was assigned on this path, so the
      -- read raises NameError before anything is returned
      .error (.nameError ("torbrowser_profile_path".data))
    else
      .error (.runtimeError
        ("No file found at the path specified in environment variable `TORBROWSER_PROFILE`.Current `TORBROWSER_PROFILE`: ".data
          ++ torbrowser_binary_path ++ ".\nCurrent slider setting: ".data
          ++ slider_setting ++ ".".data))
  | none =>
    if platform = "darwin".data then
      -- the darwin branch (lines 124-127) assigns only
      -- `torbrowser_binary_path`; the `os.path.isdir(torbrowser_profile_path)`
      -- read at line 132 then raises NameError
      .error (.nameError ("torbrowser_profile_path".data))
    else
      let torbrowser_profile_path := abspath (root_dir
        ++ "/Tor/tor-browser/Browser/TorBrowser/Data/Browser/".data
        ++ slider_setting)
      if isdir torbrowser_profile_path then
        .ok torbrowser_profile_path
      else
        -- the f-string of the RuntimeError at line 134 reads `slider_level`,
        -- a name no code path assigns (the parameter is `slider_setting`),
        -- so NameError is raised while building the message
        .error (.nameError ("slider_level".data))

/-- C8: on the non-macOS branch with no environment override, when the
default Tor profile directory is missing, the error-message f-string reads
the never-assigned `slider_level`, so the call raises `NameError` instead
of the described `RuntimeError`. -/
theorem c8_slider_level_name_error (isdir : Str → Bool) (platform : Str)
    (abspath : Str → Str) (root_dir slider_setting : Str)
    (hplat : platform ≠ "darwin".data)
    (hdir : isdir (abspath (root_dir
      ++ "/Tor/tor-browser/Browser/TorBrowser/Data/Browser/".data
      ++ slider_setting)) = false) :
    get_torbrowser_profile_path none isdir platform abspath root_dir
        slider_setting
      = .error (.nameError ("slider_level".data)) := by
  simp [get_torbrowser_profile_path, hplat]
  simpa using hdir

/-- C8 witness: concrete Linux platform, empty filesystem. -/
theorem c8_witness :
    ("linux".data : Str) ≠ "darwin".data
    ∧ get_torbrowser_profile_path none (fun _ => false) ("linux".data)
        (fun s => s) [] ("5".data)
      = .error (.nameError ("slider_level".data)) :=
  ⟨by decide, c8_slider_level_name_error (fun _ => false) ("linux".data)
    (fun s => s) [] ("5".data) (by decide) rfl⟩

/-- C9: with the `TORBROWSER_PROFILE` override set and
`{override}/{slider_setting}` an existing directory, the return statement
at line 120 reads the never-assigned `torbrowser_profile_path` (the
override was stored in `torbrowser_binary_path`), so the success branch
always raises `NameError` instead of returning the overridden path. -/
theorem c9_override_success_name_error (ov : Str) (isdir : Str → Bool)
    (platform : Str) (abspath : Str → Str) (root_dir slider_setting : Str)
    (hdir : isdir (ov ++ "/".data ++ slider_setting) = true) :
    get_torbrowser_profile_path (some ov) isdir platform abspath root_dir
        slider_setting
      = .error (.nameError ("torbrowser_profile_path".data)) := by
  simp [get_torbrowser_profile_path]
  simpa using hdir

/-- C9 witness: override `/opt/tbb`, slider `5`, directory present. -/
theorem c9_witness :
    (fun _ : Str => true) (("/opt/tbb".data : Str) ++ "/".data ++ "5".data)
        = true
    ∧ get_torbrowser_profile_path (some ("/opt/tbb".data)) (fun _ => true)
        ("linux".data) (fun s => s) [] ("5".data)
      = .error (.nameError ("torbrowser_profile_path".data)) :=
  ⟨rfl, c9_override_success_name_error ("/opt/tbb".data) (fun _ => true)
    ("linux".data) (fun s => s) [] ("5".data) rfl⟩

/-- ASCII whitespace for `bytes.split()` / `str.split()` with no
separator. -/
def isPyWs (c : Char) : Bool :=
  c = ' ' || c = '\t' || c = '\n' || c = '\r' || c.toNat = 11 || c.toNat = 12

/-- Split at every character satisfying `p`, keeping empty groups. -/
def splitClass (p : Char → Bool) : Str → List Str
  | [] => [[]]
  | x :: xs =>
    let r := splitClass p xs
    if p x then [] :: r
    else
      match r with
      | [] => [[x]]
      | h :: t => (x :: h) :: t

/-- Python `s.split()` (no separator): split on whitespace runs, dropping
empty groups. -/
def pySplitWs (s : Str) : List Str :=
  (splitClass isPyWs s).filter (fun g => !g.isEmpty)

/-- The outcome of opening, reading and JSON-parsing `tbb_version.json`
(lines 163-165). -/
inductive TbbOutcome where
  /-- the file was read and parsed; its `version` entry -/
  | done (version : Str)
  | fileNotFound
  | permissionError
  | jsonDecodeError

/-- `get_version` (lines 141-172).  External effects enter as parameters:
`gitDescribe` is `check_output(["git", "describe", ...])` (stripped),
`versionFileLine` the first stripped line of the `VERSION` fallback file,
`firefoxBinary` / `torbrowserBinary` the two path resolvers (which may
raise `RuntimeError`), `firefoxOut` the stdout of `firefox --version`, and
`tbb` the outcome of reading `tbb_version.json`.  In the three `except`
handlers at lines 166-171 the `raise RuntimeError(...) from e` expression
reads `e`, which is only ever bound inside (and implicitly deleted after)
the `except ... as e` clause at line 155 — and that clause, when it runs,
raises before reaching line 163 — so on these paths `e` is unbound and the
caller receives `NameError`. -/
def get_version (gitDescribe : Except Unit Str) (versionFileLine : Str)
    (firefoxBinary : Except PyErr Str) (firefoxOut : Except Unit Str)
    (torbrowserBinary : Except PyErr Str) (tbb : TbbOutcome) :
    Except PyErr (Str × Str × Str) :=
  let openwpm := match gitDescribe with
    | .ok v => v
    | .error _ => versionFileLine
  match firefoxBinary with
  | .error e => .error e
  | .ok _ =>
    match firefoxOut with
    | .error _ =>
      -- here `e` IS bound by `except ... as e`, and the adjacent string
      -- literals concatenate to a doubled space
      .error (.runtimeError ("Firefox not found.  Did you run `./install.sh`?".data))
    | .ok out =>
      match (pySplitWs out).getLast? with
      | none => .error .indexError
      | some ff =>
        match torbrowserBinary with
        | .error e => .error e
        | .ok _ =>
          match tbb with
          | .done v => .ok (openwpm, ff, "Tor Browser Version".data ++ v)
          | .fileNotFound => .error (.nameError ("e".data))
          | .permissionError => .error (.nameError ("e".data))
          | .jsonDecodeError => .error (.nameError ("e".data))

/-- C10: whenever the Firefox subprocess succeeds (binary resolved, output
has a last token) but reading or parsing `tbb_version.json` fails in any
of the three handled ways, `get_version` raises `NameError` (unbound `e`
in `raise ... from e`) instead of the intended descriptive
`RuntimeError`. -/
theorem c10_tbb_failure_name_error (gitDescribe : Except Unit Str)
    (versionFileLine fbin out tbin : Str) (tbb : TbbOutcome) (ff : Str)
    (hout : (pySplitWs out).getLast? = some ff)
    (htbb : tbb = .fileNotFound ∨ tbb = .permissionError
      ∨ tbb = .jsonDecodeError) :
    get_version gitDescribe versionFileLine (.ok fbin) (.ok out) (.ok tbin)
        tbb
      = .error (.nameError ("e".data)) := by
  rcases htbb with h | h | h <;> subst h <;>
    simp [get_version, hout]

/-- C10 witness: `firefox --version` printed `Mozilla Firefox 91.0` and
`tbb_version.json` is missing. -/
theorem c10_witness :
    (pySplitWs ("Mozilla Firefox 91.0".data)).getLast? = some ("91.0".data)
    ∧ get_version (.ok ("v1".data)) [] (.ok ("/ff".data))
        (.ok ("Mozilla Firefox 91.0".data)) (.ok ("/tor".data)) .fileNotFound
      = .error (.nameError ("e".data)) :=
  ⟨rfl, c10_tbb_failure_name_error (.ok ("v1".data)) [] ("/ff".data)
    ("Mozilla Firefox 91.0".data) ("/tor".data) .fileNotFound ("91.0".data)
    rfl (Or.inl rfl)⟩

end PlatformUtils
